import Mathlib

/-!
# HandCalculator: verification of the calculator engine and gesture recognizer

Shallow embedding of `src/calculator.py` and `src/gesture_recognizer.py`.
Python floats are modelled as rationals (`ℚ`); the numeric values exercised
by the specification's test vectors are small integers and are exact in both
models.  Wall-clock timestamps are rationals.  String formatting follows
Python's `str`/f-string behaviour on the values that actually occur.
-/

/- `Rat`'s arithmetic is `@[irreducible]` in Batteries; unseal it so that
concrete states and display strings can be settled by `decide`. -/
attribute [local semireducible] Rat.add Rat.sub Rat.mul Rat.inv Rat.ofScientific

namespace HandCalc

/-- Arithmetic operators of the calculator (`'+'`, `'-'`, `'*'`, `'/'`). -/
inductive Op where
  | add | sub | mul | div
deriving DecidableEq, Repr

/-- The closed symbol set fed to the calculator and emitted by the
recognizer: digits `'0'`-`'9'`, the four operators, `'='` and `'C'`. -/
inductive Gesture where
  | digit : Fin 10 → Gesture
  | op : Op → Gesture
  | eq : Gesture
  | clear : Gesture
deriving DecidableEq, Repr

/-- The display character of an operator, as the Python code's `'+'` etc. -/
def opStr : Op → String
  | .add => "+"
  | .sub => "-"
  | .mul => "*"
  | .div => "/"

/-- Apply an operator to two numbers (the arithmetic of `_calculate_result`;
the division-by-zero case is guarded before this is reached). -/
def applyOp : Op → ℚ → ℚ → ℚ
  | .add, a, b => a + b
  | .sub, a, b => a - b
  | .mul, a, b => a * b
  | .div, a, b => a / b

/-- The single-character string a digit gesture stores in
`current_number` (Python: the gesture character itself). -/
def digitStr (d : Fin 10) : String :=
  String.singleton (Char.ofNat (48 + d.val))

/-- `float(s)` on a (non-empty) digit string: base-10 value of the digits. -/
def parseNum (s : String) : ℚ :=
  s.toList.foldl (fun a c => a * 10 + ((c.toNat - 48 : ℕ) : ℚ)) 0

/-- Decimal digits of a fraction `q ∈ [0,1)`, fuel-bounded (17 places, the
longest a Python float `repr` produces); used only below. -/
def decDigits : ℕ → ℚ → String
  | 0, _ => ""
  | fuel + 1, q =>
    if q = 0 then ""
    else
      let d : ℤ := ⌊q * 10⌋
      toString d ++ decDigits fuel (q * 10 - (d : ℚ))

/-- Python `str(x)` for a float `x`: integral values render as `"n.0"`,
others as sign, integer part, `'.'`, then the decimal expansion (exact for
the terminating decimals that arise here). -/
def pyFloatStr (q : ℚ) : String :=
  if q.den = 1 then toString q.num ++ ".0"
  else
    (if q < 0 then "-" else "") ++
      toString ⌊|q|⌋ ++ "." ++ decDigits 17 (|q| - (⌊|q|⌋ : ℚ))

/-- Calculator state: the fields of `Calculator.__init__`, in order. -/
structure CalcState where
  current_number : String
  operation : Option Op
  operand1 : Option ℚ
  result : Option ℚ
  history : List String
  error : Option String
deriving DecidableEq, Repr

/-- The initial calculator state (`Calculator.__init__`). -/
def initCalc : CalcState :=
  { current_number := ""
    operation := none
    operand1 := none
    result := none
    history := []
    error := none }

/-- `Calculator.clear`: reset every field except `history`. -/
def clear (s : CalcState) : CalcState :=
  { current_number := ""
    operation := none
    operand1 := none
    result := none
    history := s.history
    error := none }

/-- The history line `f"{operand1} {operation} {operand2} = {result}"`. -/
def histEntry (o1 : ℚ) (op : Op) (o2 r : ℚ) : String :=
  pyFloatStr o1 ++ " " ++ opStr op ++ " " ++ pyFloatStr o2 ++ " = " ++ pyFloatStr r

/-- `Calculator._calculate_result`: evaluate `operand1 (operation) operand2`
where `operand2 = float(current_number)`; on division by zero set the error
and then call `clear` (which, as in the source, also wipes the error just
set); on success append to history and reset all but `result`. -/
def calculate_result (s : CalcState) : CalcState :=
  match s.operand1, s.operation with
  | some operand1, some op =>
    if s.current_number = "" then s
    else
      let operand2 := parseNum s.current_number
      if op = Op.div ∧ operand2 = 0 then
        clear { s with error := some "Division by zero" }
      else
        let r := applyOp op operand1 operand2
        { s with
            result := some r
            history := s.history ++ [histEntry operand1 op operand2 r]
            operand1 := none
            operation := none
            current_number := "" }
  | _, _ => s

/-- `Calculator._handle_operation`: commit the buffered digit as `operand1`,
or evaluate the pending operation first (chained input), or continue from a
previous result; otherwise do nothing. -/
def handle_operation (s : CalcState) (op : Op) : CalcState :=
  if s.current_number ≠ "" then
    match s.operand1 with
    | none =>
      { s with
          operand1 := some (parseNum s.current_number)
          current_number := ""
          operation := some op }
    | some _ =>
      let s' := calculate_result s
      if s'.error = none then { s' with operation := some op } else s'
  else
    match s.result with
    | some r =>
      { s with operand1 := some r, result := none, operation := some op }
    | none => s

/-- `Calculator.process_gesture`: returns (state-updated?, new state).
`None` input returns `False` untouched; otherwise `error` is cleared first,
then the symbol is dispatched. -/
def process_gesture (s : CalcState) (g : Option Gesture) : Bool × CalcState :=
  match g with
  | none => (false, s)
  | some g =>
    let s := { s with error := (none : Option String) }
    match g with
    | .digit d =>
      if s.current_number = "" then
        (true, { s with current_number := digitStr d })
      else
        (false, s)
    | .clear => (true, clear s)
    | .op o => (true, handle_operation s o)
    | .eq => (true, calculate_result s)

/-- Feed a list of confirmed symbols to the calculator in order. -/
def runCalc (s : CalcState) (gs : List Gesture) : CalcState :=
  gs.foldl (fun s g => (process_gesture s (some g)).2) s

/-- Zero-pad a natural number to four digits (for the `:.4f` format). -/
def pad4 (n : ℕ) : String :=
  let s := toString n
  String.mk (List.replicate (4 - s.length) '0') ++ s

/-- Strip trailing `'0'` characters (Python `rstrip('0')`). -/
def rstrip0 (s : String) : String :=
  String.mk ((s.toList.reverse.dropWhile (· = '0')).reverse)

/-- `f"{q:.4f}".rstrip('0').rstrip('.')`: round to four decimal places,
then drop trailing zeros and a trailing point. -/
def fmt4 (q : ℚ) : String :=
  let scaled : ℤ := round (|q| * 10000)
  let ip := scaled / 10000
  let fp := (scaled % 10000).toNat
  let frac := rstrip0 (pad4 fp)
  (if q < 0 then "-" else "") ++ toString ip ++
    (if frac = "" then "" else "." ++ frac)

/-- `Calculator.get_display_text`: error message, else formatted result,
else the digit buffer, else `operand1 operator`, else `"0"`. -/
def get_display_text (s : CalcState) : String :=
  match s.error with
  | some e => "Error: " ++ e
  | none =>
    match s.result with
    | some r => if r.den = 1 then toString r.num else fmt4 r
    | none =>
      if s.current_number ≠ "" then s.current_number
      else
        match s.operand1, s.operation with
        | some o1, some op =>
          (if o1.den = 1 then toString o1.num else pyFloatStr o1) ++ " " ++ opStr op
        | _, _ => "0"

/-- `Calculator.get_history`: the last `max_items` entries, most recent
first (Python `list(reversed(self.history[-max_items:]))`; `max_items = 0`
returns the whole log reversed, as `h[-0:]` is `h`). -/
def get_history (s : CalcState) (max_items : ℕ) : List String :=
  if max_items = 0 then s.history.reverse
  else (s.history.drop (s.history.length - max_items)).reverse

/-! ## Gesture recognizer (`src/gesture_recognizer.py`) -/

/-- One hand landmark: a 3-D point in normalized coordinates. -/
structure Pt where
  x : ℚ
  y : ℚ
  z : ℚ
deriving DecidableEq, Repr

/-- `landmarks[i]` (all accesses in the source are guarded by the
21-point length check, so the default is never consulted there). -/
def nth (lm : List Pt) (i : ℕ) : Pt :=
  lm.getD i ⟨0, 0, 0⟩

/-- `GestureRecognizer._count_fingers_up`: the thumb counts as extended
when its tip-to-IP horizontal distance exceeds the IP-to-MCP one; each
other finger counts when its tip is above (smaller `y` than) its PIP. -/
def count_fingers_up (lm : List Pt) : ℕ :=
  (if |(nth lm 4).x - (nth lm 3).x| > |(nth lm 3).x - (nth lm 2).x| then 1 else 0) +
  (if (nth lm 8).y < (nth lm 6).y then 1 else 0) +
  (if (nth lm 12).y < (nth lm 10).y then 1 else 0) +
  (if (nth lm 16).y < (nth lm 14).y then 1 else 0) +
  (if (nth lm 20).y < (nth lm 18).y then 1 else 0)

/-- `GestureRecognizer._is_thumbs_up`: exactly one finger counted, thumb
tip above the thumb MCP, index tip below the index MCP. -/
def is_thumbs_up (lm : List Pt) : Bool :=
  if count_fingers_up lm ≠ 1 then false
  else decide ((nth lm 4).y < (nth lm 2).y ∧ (nth lm 8).y > (nth lm 5).y)

/-- `GestureRecognizer._is_thumbs_down`: exactly one finger counted, thumb
tip below the thumb MCP, index tip below the index MCP. -/
def is_thumbs_down (lm : List Pt) : Bool :=
  if count_fingers_up lm ≠ 1 then false
  else decide ((nth lm 4).y > (nth lm 2).y ∧ (nth lm 8).y > (nth lm 5).y)

/-- `GestureRecognizer._is_peace_sign`: index and middle up, ring down, and
index-tip-to-middle-tip Euclidean distance above 0.05 (the source compares
`math.sqrt(d2) > 0.05`; both sides are nonnegative, so this is `d2 >
0.05²`). -/
def is_peace_sign (lm : List Pt) : Bool :=
  decide ((nth lm 8).y < (nth lm 6).y ∧
    (nth lm 12).y < (nth lm 10).y ∧
    (nth lm 16).y > (nth lm 14).y ∧
    ((nth lm 8).x - (nth lm 12).x) ^ 2 + ((nth lm 8).y - (nth lm 12).y) ^ 2 >
      (0.05 : ℚ) ^ 2)

/-- `GestureRecognizer._is_pointing_up`: index up, middle down, and the
index tip horizontally within half of its vertical offset from the PIP. -/
def is_pointing_up (lm : List Pt) : Bool :=
  decide ((nth lm 8).y < (nth lm 6).y ∧
    (nth lm 12).y > (nth lm 10).y ∧
    |(nth lm 8).x - (nth lm 6).x| < |(nth lm 8).y - (nth lm 6).y| * (0.5 : ℚ))

/-- `GestureRecognizer._is_flat_palm`: all five fingers counted, index and
pinky tips horizontally within 0.25, and wrist-to-middle-MCP depth
difference below 0.1. -/
def is_flat_palm (lm : List Pt) : Bool :=
  if count_fingers_up lm ≠ 5 then false
  else decide (|(nth lm 8).x - (nth lm 20).x| < (0.25 : ℚ) ∧
    |(nth lm 0).z - (nth lm 9).z| < (0.1 : ℚ))

/-- The classification block of `recognize_gesture` (lines 52-88): base
symbol from the extended-finger count with the `/`, `*`, `=` refinements,
then the thumbs-up/down checks, which run last and override the base. -/
def detect_gesture (lm : List Pt) : Option Gesture :=
  let fingers_up := count_fingers_up lm
  let base : Option Gesture :=
    if fingers_up = 0 then some (.digit 0)
    else if fingers_up = 1 then
      some (if is_pointing_up lm then .op .div else .digit 1)
    else if fingers_up = 2 then
      some (if is_peace_sign lm then .op .mul else .digit 2)
    else if fingers_up = 3 then some (.digit 3)
    else if fingers_up = 4 then some (.digit 4)
    else if fingers_up = 5 then
      some (if is_flat_palm lm then .eq else .digit 5)
    else none
  if is_thumbs_up lm then some (.op .add)
  else if is_thumbs_down lm then some (.op .sub)
  else base

/-- Stabilizer state: the mutable fields of `GestureRecognizer.__init__`. -/
structure RecState where
  current_gesture : Option Gesture
  gesture_start_time : Option ℚ
  last_confirmed_gesture : Option Gesture
  last_confirmed_time : ℚ
deriving DecidableEq, Repr

/-- Recognizer configuration: `hold_time` (constructor argument,
default 3.0 s). -/
structure RecConfig where
  hold_time : ℚ
deriving DecidableEq, Repr

/-- `self.cooldown_time`, fixed at 1.0 s in `__init__`. -/
def cooldown_time : ℚ := 1

/-- The initial recognizer state (`GestureRecognizer.__init__`). -/
def initRecState : RecState :=
  { current_gesture := none
    gesture_start_time := none
    last_confirmed_gesture := none
    last_confirmed_time := 0 }

/-- `GestureRecognizer.recognize_gesture`, with the wall-clock read made
an explicit argument `t`.  Returns the new state and the triple
`(gesture, hold_progress, is_confirmed)`. -/
def recognize_gesture (cfg : RecConfig) (s : RecState)
    (landmarks : Option (List Pt)) (t : ℚ) :
    RecState × (Option Gesture × ℚ × Bool) :=
  match landmarks with
  | none =>
    ({ s with current_gesture := none, gesture_start_time := none },
      (none, 0, false))
  | some lm =>
    if lm.length ≠ 21 then
      ({ s with current_gesture := none, gesture_start_time := none },
        (none, 0, false))
    else if t - s.last_confirmed_time < cooldown_time then
      (s, (none, 0, false))
    else
      match detect_gesture lm with
      | some g =>
        if s.current_gesture = some g then
          let hold_duration := t - s.gesture_start_time.getD 0
          let hold_progress := min (hold_duration / cfg.hold_time) 1
          if hold_duration ≥ cfg.hold_time then
            ({ current_gesture := none
               gesture_start_time := none
               last_confirmed_gesture := some g
               last_confirmed_time := t },
              (some g, 1, true))
          else
            (s, (some g, hold_progress, false))
        else
          ({ s with current_gesture := some g, gesture_start_time := some t },
            (some g, 0, false))
      | none =>
        ({ s with current_gesture := none, gesture_start_time := none },
          (none, 0, false))

/-! ### Runs of the stabilizer

A run feeds `recognize_gesture` one frame per step: frame `n` carries the
landmarks `f n` (or no hand) and the wall-clock timestamp `τ n`. -/

/-- The classified symbol of one frame, exactly as `recognize_gesture`
derives it: absent or malformed frames classify as "none". -/
def classOf (landmarks : Option (List Pt)) : Option Gesture :=
  match landmarks with
  | none => none
  | some lm => if lm.length ≠ 21 then none else detect_gesture lm

/-- The recognizer state before frame `n` of a run. -/
def recStateAt (cfg : RecConfig) (f : ℕ → Option (List Pt)) (τ : ℕ → ℚ) :
    ℕ → RecState
  | 0 => initRecState
  | n + 1 => (recognize_gesture cfg (recStateAt cfg f τ n) (f n) (τ n)).1

/-- The `(gesture, hold_progress, is_confirmed)` triple emitted at frame
`n` of a run. -/
def recOutAt (cfg : RecConfig) (f : ℕ → Option (List Pt)) (τ : ℕ → ℚ)
    (n : ℕ) : Option Gesture × ℚ × Bool :=
  (recognize_gesture cfg (recStateAt cfg f τ n) (f n) (τ n)).2

/-- Whether frame `n` of a run confirms a gesture. -/
def confirmedAt (cfg : RecConfig) (f : ℕ → Option (List Pt)) (τ : ℕ → ℚ)
    (n : ℕ) : Bool :=
  (recOutAt cfg f τ n).2.2

/-- The gesture emitted at frame `n` of a run. -/
def symbolAt (cfg : RecConfig) (f : ℕ → Option (List Pt)) (τ : ℕ → ℚ)
    (n : ℕ) : Option Gesture :=
  (recOutAt cfg f τ n).1

/-- A thumbs-up test frame: thumb extended sideways and above its MCP, all
four other fingers curled below their PIPs and MCPs. -/
def lmThumbsUpW : List Pt :=
  [⟨0, 0, 0⟩, ⟨0, 0, 0⟩, ⟨0.3, 0.5, 0⟩, ⟨0.3, 0.3, 0⟩, ⟨0.5, 0.2, 0⟩,
   ⟨0, 0.5, 0⟩, ⟨0, 0.6, 0⟩, ⟨0, 0, 0⟩, ⟨0, 0.8, 0⟩, ⟨0, 0, 0⟩,
   ⟨0, 0.6, 0⟩, ⟨0, 0, 0⟩, ⟨0, 0.8, 0⟩, ⟨0, 0, 0⟩, ⟨0, 0.6, 0⟩,
   ⟨0, 0, 0⟩, ⟨0, 0.8, 0⟩, ⟨0, 0, 0⟩, ⟨0, 0.6, 0⟩, ⟨0, 0, 0⟩, ⟨0, 0.8, 0⟩]

/-- A thumbs-down test frame: as `lmThumbsUpW` but with the thumb tip
below its MCP. -/
def lmThumbsDownW : List Pt :=
  [⟨0, 0, 0⟩, ⟨0, 0, 0⟩, ⟨0.3, 0.5, 0⟩, ⟨0.3, 0.6, 0⟩, ⟨0.5, 0.7, 0⟩,
   ⟨0, 0.5, 0⟩, ⟨0, 0.6, 0⟩, ⟨0, 0, 0⟩, ⟨0, 0.8, 0⟩, ⟨0, 0, 0⟩,
   ⟨0, 0.6, 0⟩, ⟨0, 0, 0⟩, ⟨0, 0.8, 0⟩, ⟨0, 0, 0⟩, ⟨0, 0.6, 0⟩,
   ⟨0, 0, 0⟩, ⟨0, 0.8, 0⟩, ⟨0, 0, 0⟩, ⟨0, 0.6, 0⟩, ⟨0, 0, 0⟩, ⟨0, 0.8, 0⟩]

/-- A peace-sign test frame: index and middle up and spread apart, ring
and pinky down, thumb not extended. -/
def lmPeaceW : List Pt :=
  [⟨0, 0, 0⟩, ⟨0, 0, 0⟩, ⟨0.3, 0.5, 0⟩, ⟨0.3, 0.3, 0⟩, ⟨0.3, 0.2, 0⟩,
   ⟨0.2, 0.5, 0⟩, ⟨0.2, 0.4, 0⟩, ⟨0, 0, 0⟩, ⟨0.2, 0.2, 0⟩, ⟨0, 0, 0⟩,
   ⟨0.4, 0.4, 0⟩, ⟨0, 0, 0⟩, ⟨0.4, 0.2, 0⟩, ⟨0, 0, 0⟩, ⟨0.5, 0.6, 0⟩,
   ⟨0, 0, 0⟩, ⟨0.5, 0.8, 0⟩, ⟨0, 0, 0⟩, ⟨0.6, 0.6, 0⟩, ⟨0, 0, 0⟩, ⟨0.6, 0.8, 0⟩]

/-! ## Claim theorems about the landmark classifier -/

/-- Claim C4: the thumbs-up/down check runs after the digit/operator
branch and takes highest precedence: any 21-point frame with
extended-finger count 1, thumb tip above its MCP and index tip below its
MCP classifies as `'+'` (and symmetrically, thumb tip below its MCP gives
`'-'`), overriding whatever the count-based branch chose. -/
theorem thumbs_check_overrides_base (lm : List Pt) (hlen : lm.length = 21) :
    (count_fingers_up lm = 1 →
      (nth lm 4).y < (nth lm 2).y → (nth lm 8).y > (nth lm 5).y →
      detect_gesture lm = some (.op .add)) ∧
    (count_fingers_up lm = 1 →
      (nth lm 4).y > (nth lm 2).y → (nth lm 8).y > (nth lm 5).y →
      detect_gesture lm = some (.op .sub)) := by
  constructor
  · intro hc hy hi
    have hup : is_thumbs_up lm = true := by
      simp [is_thumbs_up, hc, hy, hi]
    simp [detect_gesture, hup]
  · intro hc hy hi
    have hny : ¬ ((nth lm 4).y < (nth lm 2).y) := not_lt.mpr hy.le
    have hup : is_thumbs_up lm = false := by
      simp [is_thumbs_up, hc, hny]
    have hdn : is_thumbs_down lm = true := by
      simp [is_thumbs_down, hc, hy, hi]
    simp [detect_gesture, hup, hdn]

/-- Witness for C4: concrete thumbs-up and thumbs-down frames classify as
`'+'` and `'-'` respectively. -/
theorem thumbs_check_overrides_base_witness :
    detect_gesture lmThumbsUpW = some (.op .add) ∧
    detect_gesture lmThumbsDownW = some (.op .sub) :=
  ⟨(thumbs_check_overrides_base lmThumbsUpW (by decide)).1
      (by decide) (by decide) (by decide),
   (thumbs_check_overrides_base lmThumbsDownW (by decide)).2
      (by decide) (by decide) (by decide)⟩

/-- Claim C8: a 21-point frame with index and middle tips above their
PIPs, ring tip below its PIP, squared tip separation above 0.05², and
extended-finger count 2 classifies as `'*'`, not `'2'`. -/
theorem peace_sign_classifies_as_mul (lm : List Pt) (hlen : lm.length = 21)
    (hidx : (nth lm 8).y < (nth lm 6).y)
    (hmid : (nth lm 12).y < (nth lm 10).y)
    (hring : (nth lm 16).y > (nth lm 14).y)
    (hdist : ((nth lm 8).x - (nth lm 12).x) ^ 2 +
      ((nth lm 8).y - (nth lm 12).y) ^ 2 > (0.05 : ℚ) ^ 2)
    (hcount : count_fingers_up lm = 2) :
    detect_gesture lm = some (.op .mul) ∧
    detect_gesture lm ≠ some (.digit 2) := by
  have hpeace : is_peace_sign lm = true := by
    simp [is_peace_sign, hidx, hmid, hring, hdist]
  have hup : is_thumbs_up lm = false := by
    simp [is_thumbs_up, hcount]
  have hdn : is_thumbs_down lm = false := by
    simp [is_thumbs_down, hcount]
  have hmul : detect_gesture lm = some (.op .mul) := by
    simp [detect_gesture, hup, hdn, hcount, hpeace]
  exact ⟨hmul, by rw [hmul]; simp⟩

/-- Witness for C8: a concrete spread V-shape frame classifies as `'*'`. -/
theorem peace_sign_classifies_as_mul_witness :
    detect_gesture lmPeaceW = some (.op .mul) ∧
    detect_gesture lmPeaceW ≠ some (.digit 2) :=
  peace_sign_classifies_as_mul lmPeaceW (by decide) (by decide) (by decide)
    (by decide) (by decide) (by decide)

/-- Claim C9: an absent frame, or one whose point count is not 21, makes
`recognize_gesture` return `(None, 0.0, False)`; malformed frames degrade
to "no hand" instead of being classified (the guard returns before any
landmark is inspected). -/
theorem malformed_frame_is_no_hand (cfg : RecConfig) (s : RecState)
    (landmarks : Option (List Pt)) (t : ℚ)
    (h : landmarks = none ∨ ∃ l, landmarks = some l ∧ l.length ≠ 21) :
    (recognize_gesture cfg s landmarks t).2 = (none, 0, false) := by
  rcases h with h | ⟨l, rfl, hl⟩
  · subst h; rfl
  · simp [recognize_gesture, hl]

/-- Witness for C9: a one-point frame yields `(None, 0.0, False)`. -/
theorem malformed_frame_is_no_hand_witness :
    (recognize_gesture ⟨3⟩ initRecState (some [⟨0, 0, 0⟩]) 5).2 =
      (none, 0, false) :=
  malformed_frame_is_no_hand ⟨3⟩ initRecState (some [⟨0, 0, 0⟩]) 5
    (Or.inr ⟨[⟨0, 0, 0⟩], rfl, by decide⟩)

/-! ## Stabilizer temporal lemmas (claim C3) -/

/-- One step never decreases `last_confirmed_time`: the field is only
written in the confirm branch, which is guarded by the cooldown check. -/
theorem lct_le_step (cfg : RecConfig) (s : RecState) (lm : Option (List Pt))
    (t : ℚ) :
    s.last_confirmed_time ≤ (recognize_gesture cfg s lm t).1.last_confirmed_time := by
  have hcd : cooldown_time = 1 := rfl
  cases lm with
  | none => simp [recognize_gesture]
  | some l =>
    by_cases hlen : l.length = 21
    · by_cases hcool : t - s.last_confirmed_time < cooldown_time
      · simp [recognize_gesture, hlen, hcool]
      · cases hdet : detect_gesture l with
        | none => simp [recognize_gesture, hlen, hcool, hdet]
        | some g =>
          by_cases hsame : s.current_gesture = some g
          · by_cases hdur : t - s.gesture_start_time.getD 0 ≥ cfg.hold_time
            · simp only [recognize_gesture, hlen, hcool, hdet, hsame, hdur]
              push_neg at hcool
              simp only [ne_eq, hlen]
              norm_num
              linarith [hcool]
            · simp [recognize_gesture, hlen, hcool, hdet, hsame, hdur]
          · simp [recognize_gesture, hlen, hcool, hdet, hsame]
    · simp [recognize_gesture, hlen]

/-- `last_confirmed_time` is monotone along any run. -/
theorem lct_mono (cfg : RecConfig) (f : ℕ → Option (List Pt)) (τ : ℕ → ℚ)
    (n m : ℕ) (h : n ≤ m) :
    (recStateAt cfg f τ n).last_confirmed_time ≤
      (recStateAt cfg f τ m).last_confirmed_time := by
  induction m with
  | zero =>
    have : n = 0 := Nat.le_zero.mp h
    subst this
    exact le_refl _
  | succ m ih =>
    by_cases hnm : n = m + 1
    · subst hnm
      exact le_refl _
    · have h' : n ≤ m := by omega
      exact le_trans (ih h')
        (lct_le_step cfg (recStateAt cfg f τ m) (f m) (τ m))

/-- Inversion of a confirming step: it happened on a well-formed frame
whose classified symbol was already being tracked, at least `hold_time`
after the hold began and at least `cooldown_time` after the previous
confirmation; it emits that symbol and stamps `last_confirmed_time`. -/
theorem confirm_inv (cfg : RecConfig) (s : RecState) (lm : Option (List Pt))
    (t : ℚ) (h : (recognize_gesture cfg s lm t).2.2.2 = true) :
    (recognize_gesture cfg s lm t).1.last_confirmed_time = t ∧
    cooldown_time ≤ t - s.last_confirmed_time ∧
    cfg.hold_time ≤ t - s.gesture_start_time.getD 0 ∧
    ∃ l g, lm = some l ∧ l.length = 21 ∧ detect_gesture l = some g ∧
      s.current_gesture = some g ∧
      (recognize_gesture cfg s lm t).2.1 = some g ∧
      (recognize_gesture cfg s lm t).1.current_gesture = none := by
  cases lm with
  | none => simp [recognize_gesture] at h
  | some l =>
    by_cases hlen : l.length = 21
    · by_cases hcool : t - s.last_confirmed_time < cooldown_time
      · simp [recognize_gesture, hlen, hcool] at h
      · cases hdet : detect_gesture l with
        | none => simp [recognize_gesture, hlen, hcool, hdet] at h
        | some g =>
          by_cases hsame : s.current_gesture = some g
          · by_cases hdur : t - s.gesture_start_time.getD 0 ≥ cfg.hold_time
            · push_neg at hcool
              refine ⟨?_, hcool, hdur, l, g, rfl, hlen, hdet, hsame, ?_, ?_⟩ <;>
                simp [recognize_gesture, hlen, hcool.not_lt, hdet, hsame, hdur]
            · simp [recognize_gesture, hlen, hcool, hdet, hsame, hdur] at h
          · simp [recognize_gesture, hlen, hcool, hdet, hsame] at h
    · simp [recognize_gesture, hlen] at h

/-- Hold invariant: whenever a gesture is being tracked before frame `n`,
some earlier frame `i` started the hold at time `τ i` (at least a cooldown
after the last confirmation), every frame since `i` classified the very
same symbol, and none of them confirmed. -/
def HoldInv (cfg : RecConfig) (f : ℕ → Option (List Pt)) (τ : ℕ → ℚ)
    (n : ℕ) : Prop :=
  ∀ g, (recStateAt cfg f τ n).current_gesture = some g →
    ∃ i, i < n ∧
      (recStateAt cfg f τ n).gesture_start_time = some (τ i) ∧
      (recStateAt cfg f τ n).last_confirmed_time + cooldown_time ≤ τ i ∧
      (∀ m, i ≤ m → m < n → classOf (f m) = some g) ∧
      (∀ m, i ≤ m → m < n → confirmedAt cfg f τ m = false)

/-- The hold invariant is preserved by every frame of a time-monotone run. -/
theorem holdInv_succ (cfg : RecConfig) (f : ℕ → Option (List Pt))
    (τ : ℕ → ℚ) (mono : ∀ i j : ℕ, i ≤ j → τ i ≤ τ j) (n : ℕ)
    (ih : HoldInv cfg f τ n) : HoldInv cfg f τ (n + 1) := by
  intro g hg
  have hstate : recStateAt cfg f τ (n + 1) =
      (recognize_gesture cfg (recStateAt cfg f τ n) (f n) (τ n)).1 := rfl
  cases hfn : f n with
  | none =>
    rw [hstate, hfn] at hg
    simp [recognize_gesture] at hg
  | some l =>
    by_cases hlen : l.length = 21
    case neg =>
      rw [hstate, hfn] at hg
      simp [recognize_gesture, hlen] at hg
    case pos =>
    by_cases hcool : τ n - (recStateAt cfg f τ n).last_confirmed_time < cooldown_time
    case pos =>
      have hg' : (recStateAt cfg f τ n).current_gesture = some g := by
        rw [hstate, hfn] at hg
        simpa [recognize_gesture, hlen, hcool] using hg
      obtain ⟨i, hin, _, hlct, _, _⟩ := ih g hg'
      have hti : τ i ≤ τ n := mono i n (le_of_lt hin)
      linarith
    case neg =>
    cases hdet : detect_gesture l with
    | none =>
      rw [hstate, hfn] at hg
      simp [recognize_gesture, hlen, hcool, hdet] at hg
    | some g' =>
      by_cases hsame : (recStateAt cfg f τ n).current_gesture = some g'
      case pos =>
        by_cases hdur :
          τ n - (recStateAt cfg f τ n).gesture_start_time.getD 0 ≥ cfg.hold_time
        case pos =>
          rw [hstate, hfn] at hg
          simp [recognize_gesture, hlen, hcool, hdet, hsame, hdur] at hg
        case neg =>
          have hkeep : recStateAt cfg f τ (n + 1) = recStateAt cfg f τ n := by
            rw [hstate, hfn]
            simp [recognize_gesture, hlen, hcool, hdet, hsame, hdur]
          have hg' : (recStateAt cfg f τ n).current_gesture = some g := by
            rw [hkeep] at hg
            exact hg
          have hgg : g' = g := Option.some_injective _ (hsame.symm.trans hg')
          subst hgg
          obtain ⟨i, hin, hstart, hlct, hclass, hconf⟩ := ih g' hg'
          refine ⟨i, Nat.lt_succ_of_lt hin, ?_, ?_, ?_, ?_⟩
          · rw [hkeep]
            exact hstart
          · rw [hkeep]
            exact hlct
          · intro m him hm
            by_cases hmn : m = n
            · subst hmn
              simp [classOf, hfn, hlen, hdet]
            · exact hclass m him (by omega)
          · intro m him hm
            by_cases hmn : m = n
            · subst hmn
              unfold confirmedAt recOutAt
              rw [hfn]
              simp [recognize_gesture, hlen, hcool, hdet, hsame, hdur]
            · exact hconf m him (by omega)
      case neg =>
        have hstep : recStateAt cfg f τ (n + 1) =
            { recStateAt cfg f τ n with
                current_gesture := some g'
                gesture_start_time := some (τ n) } := by
          rw [hstate, hfn]
          simp [recognize_gesture, hlen, hcool, hdet, hsame]
        have hgg : g' = g := by
          rw [hstep] at hg
          simpa using hg
        subst hgg
        push_neg at hcool
        refine ⟨n, Nat.lt_succ_self n, ?_, ?_, ?_, ?_⟩
        · rw [hstep]
        · rw [hstep]
          show (recStateAt cfg f τ n).last_confirmed_time + cooldown_time ≤ τ n
          linarith
        · intro m him hm
          have : m = n := by omega
          subst this
          simp [classOf, hfn, hlen, hdet]
        · intro m him hm
          have : m = n := by omega
          subst this
          unfold confirmedAt recOutAt
          rw [hfn]
          simp [recognize_gesture, hlen, hcool.not_lt, hdet, hsame]

/-- The hold invariant holds at every frame of a time-monotone run. -/
theorem holdInv_all (cfg : RecConfig) (f : ℕ → Option (List Pt)) (τ : ℕ → ℚ)
    (mono : ∀ i j : ℕ, i ≤ j → τ i ≤ τ j) (n : ℕ) : HoldInv cfg f τ n := by
  induction n with
  | zero =>
    intro g hg
    simp [recStateAt, initRecState] at hg
  | succ n ih => exact holdInv_succ cfg f τ mono n ih

/-- Claim C3: in any run with monotonically non-decreasing timestamps, a
confirmation of symbol `g` at frame `k` requires an earlier frame `i` with
`τ k − τ i ≥ hold_time` such that every frame in `[i, k]` classified the
same symbol `g` and none of the frames `[i, k)` confirmed (at most one
confirmation per continuous hold); and any two confirmations are at least
`cooldown_time` (1.0 s) apart, whatever happens in between. -/
theorem stabilizer_confirms_only_held_gestures (cfg : RecConfig)
    (f : ℕ → Option (List Pt)) (τ : ℕ → ℚ)
    (mono : ∀ i j : ℕ, i ≤ j → τ i ≤ τ j) :
    (∀ k g, confirmedAt cfg f τ k = true → symbolAt cfg f τ k = some g →
      ∃ i, i ≤ k ∧ cfg.hold_time ≤ τ k - τ i ∧
        (∀ m, i ≤ m → m ≤ k → classOf (f m) = some g) ∧
        (∀ m, i ≤ m → m < k → confirmedAt cfg f τ m = false)) ∧
    (∀ j k, j < k → confirmedAt cfg f τ j = true →
      confirmedAt cfg f τ k = true → cooldown_time ≤ τ k - τ j) := by
  constructor
  · intro k g hconf hsym
    unfold confirmedAt recOutAt at hconf
    obtain ⟨-, -, hdur, l, g0, hfk, hlen, hdet, hcur, hout, -⟩ :=
      confirm_inv cfg (recStateAt cfg f τ k) (f k) (τ k) hconf
    have hg0 : g0 = g := by
      unfold symbolAt recOutAt at hsym
      rw [hout] at hsym
      exact Option.some_injective _ hsym
    subst hg0
    obtain ⟨i, hik, hstart, -, hclass, hnoconf⟩ :=
      holdInv_all cfg f τ mono k g0 hcur
    refine ⟨i, le_of_lt hik, ?_, ?_, hnoconf⟩
    · rw [hstart] at hdur
      simpa using hdur
    · intro m him hm
      by_cases hmk : m = k
      · subst hmk
        simp [classOf, hfk, hlen, hdet]
      · exact hclass m him (by omega)
  · intro j k hjk hj hk
    unfold confirmedAt recOutAt at hj hk
    have e1 : (recStateAt cfg f τ (j + 1)).last_confirmed_time = τ j :=
      (confirm_inv cfg (recStateAt cfg f τ j) (f j) (τ j) hj).1
    have e2 : (recStateAt cfg f τ (j + 1)).last_confirmed_time ≤
        (recStateAt cfg f τ k).last_confirmed_time :=
      lct_mono cfg f τ (j + 1) k hjk
    have e3 : cooldown_time ≤ τ k - (recStateAt cfg f τ k).last_confirmed_time :=
      (confirm_inv cfg (recStateAt cfg f τ k) (f k) (τ k) hk).2.1
    linarith

/-- A closed-fist test frame (all 21 points at the origin): no finger
counts as extended, so it classifies as the digit `'0'`. -/
def lmZeroW : List Pt :=
  List.replicate 21 ⟨0, 0, 0⟩

/-- A constant run for the C3 witness: the fist is held at every frame. -/
def fW : ℕ → Option (List Pt) :=
  fun _ => some lmZeroW

/-- Timestamps for the C3 witness run: one second per frame. -/
def tauW : ℕ → ℚ :=
  fun n => (n : ℚ)

/-- The witness run's timestamps are monotone. -/
theorem tauW_mono : ∀ i j : ℕ, i ≤ j → tauW i ≤ tauW j := by
  intro i j h
  simp only [tauW]
  exact_mod_cast h

/-- Witness for C3: in the constant run the fist confirms at frames 4 and
8 (hold time 3 s), and the theorem yields that these confirmations are at
least the 1-second cooldown apart. -/
theorem stabilizer_confirms_only_held_gestures_witness :
    cooldown_time ≤ tauW 8 - tauW 4 :=
  (stabilizer_confirms_only_held_gestures ⟨3⟩ fW tauW tauW_mono).2 4 8
    (by omega) (by decide) (by decide)

/-! ## Helper lemmas for the calculator engine -/

/-- Clearing an already-clear error field is the identity on states. -/
theorem withErrorNone_eq (s : CalcState) (h : s.error = none) :
    { s with error := none } = s := by
  cases s; simp_all

/-- A digit fed to a calculator whose buffer is non-empty (and whose error
field is already clear) is dropped: `process_gesture` returns `False` and
the state is untouched. -/
theorem digit_dropped (s : CalcState) (h : s.current_number ≠ "")
    (he : s.error = none) (d : Fin 10) :
    process_gesture s (some (.digit d)) = (false, s) := by
  simp only [process_gesture, if_neg h]
  rw [withErrorNone_eq s he]

/-- A digit gesture's buffer string is non-empty. -/
theorem digitStr_ne_empty (d : Fin 10) : digitStr d ≠ "" := by
  simp [digitStr, String.singleton, String.ext_iff]

/-! ## Claim theorems about the calculator engine -/

/-- Claim C6: processing `'3'`, `'+'`, `'4'`, `'='` from the initial state
yields result 7, displayed as the plain integer `"7"`, and appends exactly
the one history entry `"3.0 + 4.0 = 7.0"`. -/
theorem eval_3_plus_4_yields_7 :
    (runCalc initCalc [.digit 3, .op .add, .digit 4, .eq]).result = some 7 ∧
    get_display_text (runCalc initCalc [.digit 3, .op .add, .digit 4, .eq]) = "7" ∧
    (runCalc initCalc [.digit 3, .op .add, .digit 4, .eq]).history =
      ["3.0 + 4.0 = 7.0"] := by
  decide

/-- Claim C1 (failing on the code): the chained sequence `'3'`, `'+'`,
`'4'`, `'+'`, `'2'`, `'='` does NOT yield 9 with two history entries.  The
second `'+'` evaluates `3+4` but `_handle_operation` never restores
`operand1` from the result, so the final `'='` is a no-op: the run ends
with result 7, display `"7"`, and a single history entry. -/
theorem chained_3_plus_4_plus_2_yields_7_not_9 :
    runCalc initCalc [.digit 3, .op .add, .digit 4, .op .add, .digit 2, .eq] =
      { current_number := "2"
        operation := some Op.add
        operand1 := none
        result := some 7
        history := ["3.0 + 4.0 = 7.0"]
        error := none } ∧
    get_display_text
      (runCalc initCalc [.digit 3, .op .add, .digit 4, .op .add, .digit 2, .eq]) = "7" ∧
    (runCalc initCalc
      [.digit 3, .op .add, .digit 4, .op .add, .digit 2, .eq]).history.length = 1 := by
  decide

/-- Claim C2 (failing on the code): after `'5'`, `'/'`, `'0'`, `'='` the
division-by-zero handler sets `error` and then calls `clear`, and `clear`
wipes the error it just set; the display is therefore `"0"`, not
`"Error: Division by zero"`.  The clearing of operand1/operator/buffer/
result and the absence of a history entry do hold. -/
theorem div_by_zero_error_is_wiped_by_clear :
    runCalc initCalc [.digit 5, .op .div, .digit 0, .eq] =
      { current_number := ""
        operation := none
        operand1 := none
        result := none
        history := []
        error := none } ∧
    get_display_text (runCalc initCalc [.digit 5, .op .div, .digit 0, .eq]) = "0" ∧
    get_display_text (runCalc initCalc [.digit 5, .op .div, .digit 0, .eq]) ≠
      "Error: Division by zero" := by
  decide

/-- Claim C7: `'C'` from any state resets the digit buffer, operator,
operand1, result and error, leaves the history untouched, and the display
becomes `"0"`. -/
theorem clear_resets_all_but_history (s : CalcState) :
    process_gesture s (some .clear) =
      (true,
        { current_number := ""
          operation := none
          operand1 := none
          result := none
          history := s.history
          error := none }) ∧
    get_display_text (process_gesture s (some .clear)).2 = "0" ∧
    (process_gesture s (some .clear)).2.history = s.history := by
  refine ⟨rfl, rfl, rfl⟩

/-- Claim C5: starting from any state with an empty digit buffer, the first
digit of a run of digit symbols is stored (returning `True`), and every
subsequent digit before an operator/equals/clear is silently dropped: the
state stays exactly the single-digit state and each drop returns `False`. -/
theorem digits_after_first_are_dropped (s : CalcState)
    (hbuf : s.current_number = "") (d : Fin 10) (ds : List (Fin 10)) :
    (process_gesture s (some (.digit d))).1 = true ∧
    (process_gesture s (some (.digit d))).2.current_number = digitStr d ∧
    runCalc (process_gesture s (some (.digit d))).2 (ds.map Gesture.digit) =
      (process_gesture s (some (.digit d))).2 ∧
    ∀ e : Fin 10,
      process_gesture (process_gesture s (some (.digit d))).2 (some (.digit e)) =
        (false, (process_gesture s (some (.digit d))).2) := by
  have hstep : process_gesture s (some (.digit d)) =
      (true, { s with error := none, current_number := digitStr d }) := by
    simp [process_gesture, hbuf]
  have hdrop : ∀ e : Fin 10,
      process_gesture { s with error := none, current_number := digitStr d }
        (some (.digit e)) =
      (false, { s with error := none, current_number := digitStr d }) := by
    intro e
    exact digit_dropped _ (digitStr_ne_empty d) rfl e
  refine ⟨by rw [hstep], by rw [hstep], ?_, ?_⟩
  · rw [hstep]
    induction ds with
    | nil => rfl
    | cons e es ih =>
      show runCalc (process_gesture _ (some (.digit e))).2 (es.map Gesture.digit) = _
      rw [hdrop e]
      exact ih
  · intro e
    rw [hstep]
    exact hdrop e

/-- Witness for C5 at a concrete input: from the initial state, `'3'` is
accepted, the following digits `'1'`, `'2'` leave the state unchanged, and
a further `'7'` is dropped with return value `False`. -/
theorem digits_after_first_are_dropped_witness :
    (process_gesture initCalc (some (.digit 3))).1 = true ∧
    (process_gesture initCalc (some (.digit 3))).2.current_number = digitStr 3 ∧
    runCalc (process_gesture initCalc (some (.digit 3))).2
        (([1, 2] : List (Fin 10)).map Gesture.digit) =
      (process_gesture initCalc (some (.digit 3))).2 ∧
    process_gesture (process_gesture initCalc (some (.digit 3))).2
        (some (.digit 7)) =
      (false, (process_gesture initCalc (some (.digit 3))).2) := by
  obtain ⟨h1, h2, h3, h4⟩ :=
    digits_after_first_are_dropped initCalc rfl 3 ([1, 2] : List (Fin 10))
  exact ⟨h1, h2, h3, h4 7⟩

/-- Claim C10: a digit entered while a result is displayed (buffer empty,
no pending operator, no error) is accepted into the buffer, yet the display
still shows the formatted previous result: `result` takes display
precedence over the buffer, so the new digit is invisible. -/
theorem digit_after_result_is_invisible (s : CalcState) (r : ℚ) (d : Fin 10)
    (hres : s.result = some r) (hbuf : s.current_number = "")
    (hop : s.operation = none) (herr : s.error = none) :
    (process_gesture s (some (.digit d))).1 = true ∧
    (process_gesture s (some (.digit d))).2.current_number = digitStr d ∧
    (process_gesture s (some (.digit d))).2.result = some r ∧
    get_display_text (process_gesture s (some (.digit d))).2 =
      get_display_text s ∧
    get_display_text s = (if r.den = 1 then toString r.num else fmt4 r) := by
  cases s
  simp_all [process_gesture, get_display_text]

/-- Witness for C10: after `3 + 4 =` (result 7 on display), the digit `'5'`
is accepted into the buffer but the display still reads `"7"`. -/
theorem digit_after_result_is_invisible_witness :
    (process_gesture (runCalc initCalc [.digit 3, .op .add, .digit 4, .eq])
        (some (.digit 5))).1 = true ∧
    (process_gesture (runCalc initCalc [.digit 3, .op .add, .digit 4, .eq])
        (some (.digit 5))).2.current_number = digitStr 5 ∧
    (process_gesture (runCalc initCalc [.digit 3, .op .add, .digit 4, .eq])
        (some (.digit 5))).2.result = some 7 ∧
    get_display_text
        (process_gesture (runCalc initCalc [.digit 3, .op .add, .digit 4, .eq])
          (some (.digit 5))).2 =
      get_display_text (runCalc initCalc [.digit 3, .op .add, .digit 4, .eq]) ∧
    get_display_text (runCalc initCalc [.digit 3, .op .add, .digit 4, .eq]) =
      (if (7 : ℚ).den = 1 then toString (7 : ℚ).num else fmt4 7) :=
  digit_after_result_is_invisible
    (runCalc initCalc [.digit 3, .op .add, .digit 4, .eq]) 7 5
    (by decide) (by decide) (by decide) (by decide)

end HandCalc
